import Mathlib

/-!
Verification of the test-run result ingestion and aggregation pipeline of
`playwright-mcp-claude`: the live `DatabaseReporter` (reporters) and the
offline `ResultsIngester` (scripts/ingest-results), plus the aggregation
configuration module they share.

Modelling conventions:
  - JavaScript `process.env` is an `Env` record of `Option String` fields
    (a variable is unset or holds a string); JS truthiness of an env value
    is `none`/empty-string falsy, any other string truthy.
  - Timestamps and durations are rational epoch milliseconds (a JS `Date`
    is modelled by its numeric time value; `Math.round` is Mathlib `round`,
    which agrees with JS half-up rounding).
  - The MD5 hex digest from Node's `crypto` (library code, outside the
    repository) is modelled as an injective fingerprint of its input
    string: all identity claims depend only on (in)equality of the hashed
    strings, so the digest is embedded as the identity on strings.
  - SQL statements are modelled by their effect on an explicit table value
    (a list of rows) under PostgreSQL semantics: the upsert
    `ON CONFLICT ... DO UPDATE` updates exactly the listed columns of the
    conflicting row, `UPDATE ... WHERE run_id = x` rewrites exactly the
    rows keyed `x`, and `RETURNING id` hands back the row id.
-/

namespace PMC

/-- JS truthiness of an environment value: unset and the empty string are
falsy, every other string is truthy. -/
def truthy : Option String → Bool
  | none => false
  | some s => !(s == "")

/-- JS `v || d` for an env value and a string default: the value when
truthy, otherwise the default. -/
def jsOr (v : Option String) (d : String) : String :=
  if truthy v then v.getD "" else d

/-- JS `a || b || d` chain over two env values and a literal default. -/
def jsOr2 (a b : Option String) (d : String) : String :=
  if truthy a then a.getD "" else jsOr b d

/-- The environment variables read by the pipeline (config module,
`createTestRun` of both entry points). -/
structure Env where
  ciProvider : Option String := none
  githubActions : Option String := none
  projectName : Option String := none
  branchName : Option String := none
  githubRefName : Option String := none
  commitSha : Option String := none
  githubSha : Option String := none
  buildId : Option String := none
  githubRunId : Option String := none
  envName : Option String := none
  aggregationMethod : Option String := none
  dbType : Option String := none
  dbHost : Option String := none
  dbPort : Option String := none
  dbName : Option String := none
  dbUser : Option String := none
  dbPassword : Option String := none
  dbSsl : Option String := none
  testdinoApiKey : Option String := none
  testdinoProjectId : Option String := none
  testdinoEndpoint : Option String := none
  jsonOutputPath : Option String := none
  jsonIncludeStdio : Option String := none
  jsonIncludeAttachments : Option String := none
  deriving Repr, DecidableEq

/-- MD5 hex digest (Node `crypto`), modelled as an injective fingerprint:
the embedding is the identity on the hashed string, so two digests are
equal exactly when the hashed strings are. -/
def md5Hex (s : String) : String := s

namespace DatabaseReporter

/-- Source `DatabaseReporter.getTestId`: MD5 of
`test.location.file + "::" + test.titlePath().join(' › ')`. -/
def getTestId (locationFile : String) (titlePath : List String) : String :=
  md5Hex (locationFile ++ "::" ++ String.intercalate " › " titlePath)

end DatabaseReporter

namespace ResultsIngester

/-- Source `ResultsIngester.getTestId`: MD5 of `filePath + "::" + title`, applied
to `spec.file` and `spec.title` of the JSON report. -/
def getTestId (filePath : String) (title : String) : String :=
  md5Hex (filePath ++ "::" ++ title)

end ResultsIngester

/-! ## Aggregation configuration (config/aggregation.config) -/

/-- Source `DatabaseConfig` as resolved by `defaultConfig`.  `parseInt` of the
port string is modelled as a decimal parse (`none` when not a numeral). -/
structure DatabaseConfig where
  type : String
  host : String
  port : Option Nat
  database : String
  username : String
  password : String
  ssl : Bool
  deriving Repr, DecidableEq

/-- Source `TestDinoConfig` of `defaultConfig`. -/
structure TestDinoConfig where
  apiKey : String
  projectId : String
  uploadEndpoint : Option String
  deriving Repr, DecidableEq

/-- Source `JsonConfig` of `defaultConfig`. -/
structure JsonConfig where
  outputPath : String
  includeStdio : Bool
  includeAttachments : Bool
  deriving Repr, DecidableEq

/-- Source `AggregationConfig`: the optional sub-configs mirror the `?` fields of
the TypeScript interface. -/
structure AggregationConfig where
  method : String
  database : Option DatabaseConfig
  testdino : Option TestDinoConfig
  json : Option JsonConfig
  deriving Repr, DecidableEq

/-- Source `defaultConfig` from config/aggregation.config: every sub-config is
populated from the environment with literal fallbacks; in particular the
`database` field is always present (host defaults to `localhost`, user to
`postgres`, password to the empty string). -/
def defaultConfig (e : Env) : AggregationConfig where
  method := jsOr e.aggregationMethod "none"
  database := some
    { type := jsOr e.dbType "postgresql"
      host := jsOr e.dbHost "localhost"
      port := (jsOr e.dbPort "5432").toNat?
      database := jsOr e.dbName "playwright_results"
      username := jsOr e.dbUser "postgres"
      password := jsOr e.dbPassword ""
      ssl := e.dbSsl == some "true" }
  testdino := some
    { apiKey := jsOr e.testdinoApiKey ""
      projectId := jsOr e.testdinoProjectId ""
      uploadEndpoint := e.testdinoEndpoint }
  json := some
    { outputPath := jsOr e.jsonOutputPath "./test-results/aggregated-results.json"
      includeStdio := e.jsonIncludeStdio == some "true"
      includeAttachments := e.jsonIncludeAttachments == some "true" }

/-- Source `getAggregationConfig`: returns `defaultConfig`. -/
def getAggregationConfig (e : Env) : AggregationConfig := defaultConfig e

namespace DatabaseReporter

/-- The configuration guard of the `DatabaseReporter` constructor: throws
`Database configuration is missing` when the resolved config has no
`database` field, otherwise succeeds with that field. -/
def construct (e : Env) : Except String DatabaseConfig :=
  match (getAggregationConfig e).database with
  | none => .error "Database configuration is missing"
  | some db => .ok db

end DatabaseReporter

namespace ResultsIngester

/-- The configuration guard of the `ResultsIngester` constructor: throws
`Database configuration is missing` when the resolved config has no
`database` field, otherwise succeeds with the database type. -/
def construct (e : Env) : Except String String :=
  match (getAggregationConfig e).database with
  | none => .error "Database configuration is missing"
  | some db => .ok db.type

end ResultsIngester

/-! ## Run creation and summary counts -/

/-- The Playwright suite tree walked by the live reporter: each suite
holds directly-attached tests and child suites. -/
inductive Suite where
  | node (tests : List String) (children : List Suite)

/-- Shape of `report.stats` of the Playwright JSON report (fields used by the
ingester; `startTime` as epoch ms, `duration` in ms). -/
structure ReportStats where
  startTime : ℚ
  duration : ℚ
  expected : Nat
  skipped : Nat
  unexpected : Nat
  flaky : Nat
  deriving Repr, DecidableEq

/-- A `test_runs` row as created/updated by the pipeline. -/
structure TestRunRow where
  runId : String
  projectName : String
  branchName : String
  commitSha : String
  ciProvider : String
  ciBuildId : String
  envName : String
  startedAt : ℚ
  finishedAt : Option ℚ
  durationMs : Option ℚ
  status : String
  totalTests : Nat
  passedTests : Nat
  failedTests : Nat
  skippedTests : Nat
  flakyTests : Nat
  deriving Repr, DecidableEq

/-- Per-status summary counts. -/
structure RunStats where
  passed : Nat
  failed : Nat
  skipped : Nat
  flaky : Nat
  deriving Repr, DecidableEq

namespace DatabaseReporter

mutual

/-- Source `DatabaseReporter.countTests`: leaf-test count of the suite tree
(child suites first, then the suite's own tests — same sum). -/
def countTests : Suite → Nat
  | .node tests children => countTestsList children + tests.length

/-- Recursion over the child-suite list of `countTests`. -/
def countTestsList : List Suite → Nat
  | [] => 0
  | s :: rest => countTests s + countTestsList rest

end

end DatabaseReporter

/-- Number of result rows of the run carrying a given status (the SQL
`SELECT status, COUNT(*) ... GROUP BY status` restricted to one status). -/
def countStatus (statuses : List String) (s : String) : Nat :=
  (statuses.filter (fun t => t == s)).length

namespace DatabaseReporter

/-- Source `DatabaseReporter.getRunStats`: groups the run's `test_results` rows
by status and reads off the `passed`/`failed`/`skipped`/`flaky` buckets
(a status outside these four buckets is counted nowhere). -/
def getRunStats (statuses : List String) : RunStats where
  passed := countStatus statuses "passed"
  failed := countStatus statuses "failed"
  skipped := countStatus statuses "skipped"
  flaky := countStatus statuses "flaky"

/-- Source `DatabaseReporter.createTestRun`: the `test_runs` row inserted at
`onBegin`; note the un-parenthesised ternary
`CI_PROVIDER || GITHUB_ACTIONS ? 'github' : 'local'`, which JS parses as
`(CI_PROVIDER || GITHUB_ACTIONS) ? 'github' : 'local'`. -/
def createTestRun (e : Env) (runId : String) (startTime : ℚ) (suite : Suite) :
    TestRunRow where
  runId := runId
  projectName := jsOr e.projectName "playwright-mcp-claude"
  branchName := jsOr2 e.branchName e.githubRefName "main"
  commitSha := jsOr2 e.commitSha e.githubSha ""
  ciProvider := if truthy e.ciProvider || truthy e.githubActions then "github" else "local"
  ciBuildId := jsOr2 e.buildId e.githubRunId ""
  envName := jsOr e.envName "test"
  startedAt := startTime
  finishedAt := none
  durationMs := none
  status := "running"
  totalTests := countTests suite
  passedTests := 0
  failedTests := 0
  skippedTests := 0
  flakyTests := 0

/-- Source `DatabaseReporter.onEnd` status write:
`result.status === 'passed' ? 'completed' : 'failed'`. -/
def closeStatus (overall : String) : String :=
  if overall == "passed" then "completed" else "failed"

/-- Source `DatabaseReporter.onEnd` applied to the `test_runs` table: the SQL
`UPDATE test_runs SET ... WHERE run_id = $8` rewrites exactly the rows
keyed by this run's identifier. -/
def onEndUpdate (runs : List TestRunRow) (runId : String) (finishedAt : ℚ)
    (startTime : ℚ) (overall : String) (stats : RunStats) : List TestRunRow :=
  runs.map fun r =>
    if r.runId == runId then
      { r with
        finishedAt := some finishedAt
        durationMs := some (finishedAt - startTime)
        status := closeStatus overall
        passedTests := stats.passed
        failedTests := stats.failed
        skippedTests := stats.skipped
        flakyTests := stats.flaky }
    else r

end DatabaseReporter

namespace ResultsIngester

/-- Source `ResultsIngester.createTestRun`: the `test_runs` row inserted from the
JSON report's `stats`; here `CI_PROVIDER` is recorded verbatim when
truthy: `CI_PROVIDER || (GITHUB_ACTIONS ? 'github' : 'local')`. -/
def createTestRun (e : Env) (runId : String) (stats : ReportStats) :
    TestRunRow where
  runId := runId
  projectName := jsOr e.projectName "playwright-mcp-claude"
  branchName := jsOr2 e.branchName e.githubRefName "main"
  commitSha := jsOr2 e.commitSha e.githubSha ""
  ciProvider :=
    if truthy e.ciProvider then e.ciProvider.getD ""
    else if truthy e.githubActions then "github" else "local"
  ciBuildId := jsOr2 e.buildId e.githubRunId ""
  envName := jsOr e.envName "test"
  startedAt := stats.startTime
  finishedAt := none
  durationMs := none
  status := "running"
  totalTests := stats.expected + stats.unexpected + stats.skipped
  passedTests := 0
  failedTests := 0
  skippedTests := 0
  flakyTests := 0

/-- Source `ResultsIngester.updateTestRunStats` applied to the `test_runs` table:
final counts come straight from the report's `stats` buckets, the status
is always `completed`, and the `WHERE run_id = $8` clause rewrites exactly
the rows keyed by this run's identifier. -/
def updateTestRunStats (runs : List TestRunRow) (runId : String)
    (stats : ReportStats) : List TestRunRow :=
  runs.map fun r =>
    if r.runId == runId then
      { r with
        finishedAt := some (stats.startTime + stats.duration)
        durationMs := some ((round stats.duration : ℤ) : ℚ)
        status := "completed"
        passedTests := stats.expected
        failedTests := stats.unexpected
        skippedTests := stats.skipped
        flakyTests := stats.flaky }
    else r

end ResultsIngester

/-! ## Test-case identity: type inference, tags, and the upsert -/

/-- JS `String.prototype.includes` for the non-empty literal patterns used
by `inferTestType`. -/
def strContains (s pat : String) : Bool := (s.splitOn pat).length != 1

/-- Source `inferTestType` (identical in both entry points): coarse test type
from filename substring conventions. -/
def inferTestType (filePath : String) : String :=
  if strContains filePath ".api.spec" then "api"
  else if strContains filePath ".ui.spec" then "ui"
  else if strContains filePath ".performance.spec" then "performance"
  else if strContains filePath ".component.spec" then "component"
  else if strContains filePath "storybook" then "storybook"
  else "e2e"

/-- Word characters of the `\w` class matched by the tag regex. -/
def isWordChar (c : Char) : Bool := c.isAlphanum || c == '_'

/-- Single pass of the global regex `@(\w+)` over the title characters:
`cur = some w` while scanning the word following an `@`. -/
def tagsAux : List Char → Option (List Char) → List String → List String
  | [], none, acc => acc
  | [], some w, acc => if w.isEmpty then acc else acc ++ [String.mk w]
  | c :: rest, none, acc =>
    if c == '@' then tagsAux rest (some []) acc else tagsAux rest none acc
  | c :: rest, some w, acc =>
    if isWordChar c then tagsAux rest (some (w ++ [c])) acc
    else
      let acc2 := if w.isEmpty then acc else acc ++ [String.mk w]
      if c == '@' then tagsAux rest (some []) acc2 else tagsAux rest none acc2

namespace DatabaseReporter

/-- Source `DatabaseReporter.extractTags`: all `@word` tags of the title, joined
with commas. -/
def extractTags (title : String) : String :=
  String.intercalate "," (tagsAux title.data none [])

end DatabaseReporter

/-- A `test_cases` row.  `updatedAt` is the epoch-ms value of the
`CURRENT_TIMESTAMP` written by the conflict branch. -/
structure CaseRow where
  id : Nat
  testId : String
  title : String
  filePath : String
  projectName : String
  browser : String
  testType : String
  tags : String
  updatedAt : ℚ
  deriving Repr, DecidableEq

/-- The `test_cases` table: rows plus the next value of the serial `id`
sequence. -/
structure CasesTable where
  rows : List CaseRow
  nextId : Nat
  deriving Repr, DecidableEq

/-- Membership in the uniqueness constraint
`(test_id, file_path, project_name, browser)`. -/
def keyEq (r : CaseRow) (testId filePath projectName browser : String) : Bool :=
  r.testId == testId && r.filePath == filePath &&
    r.projectName == projectName && r.browser == browser

/-- Number of rows of the table matching a constraint tuple. -/
def countKey (rows : List CaseRow) (testId filePath projectName browser : String) : Nat :=
  (rows.filter (fun r => keyEq r testId filePath projectName browser)).length

/-- The fresh `test_cases` row inserted by the no-conflict branch of the
upsert, under the next serial id. -/
def upsertNewRow (tbl : CasesTable)
    (testId title filePath projectName browser testType tags : String)
    (now : ℚ) : CaseRow where
  id := tbl.nextId
  testId := testId
  title := title
  filePath := filePath
  projectName := projectName
  browser := browser
  testType := testType
  tags := tags
  updatedAt := now

/-- The shared SQL
`INSERT INTO test_cases ... ON CONFLICT (test_id, file_path, project_name,
browser) DO UPDATE SET title = EXCLUDED.title, updated_at =
CURRENT_TIMESTAMP RETURNING id` under PostgreSQL semantics: a conflicting
row keeps its id and has only `title` and `updated_at` rewritten; without
conflict a fresh row is appended under the next serial id. -/
def upsertTestCase (tbl : CasesTable)
    (testId title filePath projectName browser testType tags : String)
    (now : ℚ) : Nat × CasesTable :=
  match tbl.rows.find? (fun r => keyEq r testId filePath projectName browser) with
  | some r =>
    (r.id,
      ⟨tbl.rows.map fun q =>
          if keyEq q testId filePath projectName browser then
            { q with title := title, updatedAt := now }
          else q,
        tbl.nextId⟩)
  | none =>
    (tbl.nextId,
      ⟨tbl.rows ++
          [upsertNewRow tbl testId title filePath projectName browser
            testType tags now],
        tbl.nextId + 1⟩)

/-- The fields of a Playwright `TestCase` read by the live reporter:
`location.file`, `titlePath()`, `title`, `parent.project()?.name`. -/
structure TestCaseInput where
  locationFile : String
  titlePath : List String
  title : String
  projectName : Option String
  deriving Repr, DecidableEq

namespace DatabaseReporter

/-- The reporter state touched by `insertTestCase`: the in-memory
`testCases` cache (`Map<string, number>` as an association list, newest
binding first), the `test_cases` table, and the number of upsert
statements issued. -/
structure CaseState where
  cache : List (String × Nat)
  table : CasesTable
  upserts : Nat
  deriving Repr, DecidableEq

/-- Model of `Map.get` on the cache. -/
def cacheGet (cache : List (String × Nat)) (k : String) : Option Nat :=
  match cache with
  | [] => none
  | (k2, v) :: rest => if k2 == k then some v else cacheGet rest k

/-- Source `DatabaseReporter.insertTestCase`: answers from the cache when the
derived `test_id` is present; otherwise issues the upsert, caches the
returned id and hands it back. -/
def insertTestCase (st : CaseState) (t : TestCaseInput) (now : ℚ) :
    Nat × CaseState :=
  let testId := getTestId t.locationFile t.titlePath
  match cacheGet st.cache testId with
  | some id => (id, st)
  | none =>
    let testType := inferTestType t.locationFile
    let browser := jsOr t.projectName "chromium"
    let proj := jsOr t.projectName "default"
    let res := upsertTestCase st.table testId t.title t.locationFile
      proj browser testType (extractTags t.title) now
    (res.1, { cache := (testId, res.1) :: st.cache, table := res.2
              upserts := st.upserts + 1 })

end DatabaseReporter

/-! ## Result rows -/

/-- Model of `stdout?.map(s => String(s)).join('\n') || null`: the newline-joined
chunks, or SQL NULL when the join is the empty string (JS `|| null` on a
falsy empty string). -/
def joinLines (xs : List String) : Option String :=
  let j := String.intercalate "\n" xs
  if j == "" then none else some j

/-- The fields of one test attempt seen by either entry point (Playwright
`TestResult` for the live reporter, one `results[]` element of the JSON
report for the ingester); `startTime` as epoch ms, `duration` in ms. -/
structure AttemptData where
  status : String
  duration : ℚ
  retry : Nat
  errorMessage : Option String
  errorStack : Option String
  stdout : List String
  stderr : List String
  startTime : ℚ
  deriving Repr, DecidableEq

/-- A `test_results` row. -/
structure ResultRow where
  runId : String
  testCaseId : Nat
  status : String
  durationMs : ℚ
  retryCount : Nat
  errorMessage : Option String
  errorStack : Option String
  stdout : Option String
  stderr : Option String
  startedAt : ℚ
  finishedAt : ℚ
  deriving Repr, DecidableEq

namespace DatabaseReporter

/-- Source `DatabaseReporter.insertTestResult` row: stores `result.duration` as
is (no rounding) and `finished_at = startTime + duration`. -/
def resultRow (runId : String) (testCaseId : Nat) (r : AttemptData) : ResultRow where
  runId := runId
  testCaseId := testCaseId
  status := r.status
  durationMs := r.duration
  retryCount := r.retry
  errorMessage := r.errorMessage
  errorStack := r.errorStack
  stdout := joinLines r.stdout
  stderr := joinLines r.stderr
  startedAt := r.startTime
  finishedAt := r.startTime + r.duration

end DatabaseReporter

namespace ResultsIngester

/-- Source `ResultsIngester.insertTestResult` row: rounds the duration to the
nearest integer ms and computes
`finishedAt = startedAt.getTime() + durationMs`. -/
def resultRow (runId : String) (testCaseId : Nat) (r : AttemptData) : ResultRow where
  runId := runId
  testCaseId := testCaseId
  status := r.status
  durationMs := ((round r.duration : ℤ) : ℚ)
  retryCount := r.retry
  errorMessage := r.errorMessage
  errorStack := r.errorStack
  stdout := joinLines r.stdout
  stderr := joinLines r.stderr
  startedAt := r.startTime
  finishedAt := r.startTime + ((round r.duration : ℤ) : ℚ)

end ResultsIngester

/-! ## Per-result write failures -/

/-- One result-write request; `writeOk = false` models the database write
throwing (e.g. a transient connection error). -/
structure WriteEvent where
  id : Nat
  status : String
  writeOk : Bool
  deriving Repr, DecidableEq

namespace DatabaseReporter

/-- Source `DatabaseReporter.onTestEnd`: the whole persist block is inside
`try/catch`; a throwing write is logged and leaves the stored rows
unchanged. -/
def onTestEnd (db : List WriteEvent) (e : WriteEvent) : List WriteEvent :=
  if e.writeOk then db ++ [e] else db

/-- The reporter's stream of `onTestEnd` calls over a run. -/
def processResults (db : List WriteEvent) (evs : List WriteEvent) : List WriteEvent :=
  evs.foldl onTestEnd db

end DatabaseReporter

namespace ResultsIngester

/-- The ingestion loop of `ResultsIngester.ingest`/`processSpec`: result
writes are awaited sequentially with no per-result catch, so the first
throwing write aborts the loop (the `try/finally` only closes the pool);
returns the rows persisted so far and the propagated error, if any. -/
def ingestResults (db : List WriteEvent) : List WriteEvent → List WriteEvent × Option String
  | [] => (db, none)
  | e :: rest =>
    if e.writeOk then ingestResults (db ++ [e]) rest
    else (db, some "write failed")

/-- Whether `ResultsIngester.updateTestRunStats` runs for a result stream:
it follows the ingestion loop, so it executes only when no write threw. -/
def statsUpdateRuns (evs : List WriteEvent) : Bool :=
  (ingestResults [] evs).2.isNone

end ResultsIngester

/-! ## Performance metrics -/

/-- A parsed JSON value, to the granularity `typeof value === 'number'`
distinguishes. -/
inductive JsValue where
  | num (v : ℚ)
  | str (s : String)
  | other
  deriving Repr, DecidableEq

/-- A `test_metrics` row. -/
structure MetricRow where
  testResultId : Nat
  metricName : String
  metricValue : ℚ
  metricUnit : String
  deriving Repr, DecidableEq

namespace DatabaseReporter

/-- The `for (const [name, value] of Object.entries(metrics))` loop of
`insertPerformanceMetrics`: one row per `number`-valued entry, fixed unit
`ms`; other entries are skipped. -/
def metricRows (resultId : Nat) : List (String × JsValue) → List MetricRow
  | [] => []
  | (n, JsValue.num v) :: rest =>
    { testResultId := resultId, metricName := n, metricValue := v
      metricUnit := "ms" } :: metricRows resultId rest
  | (_, JsValue.str _) :: rest => metricRows resultId rest
  | (_, JsValue.other) :: rest => metricRows resultId rest

/-- Source `DatabaseReporter.insertPerformanceMetrics`.  The stdout scan
(`/Performance Metrics: ... /` regex) and `JSON.parse` are Node library
calls; their outcome is modelled as the optional entry list of the parsed
object: `none` when the marker is absent or the payload malformed (the
surrounding `try/catch` makes that case write nothing and never throw). -/
def insertPerformanceMetrics (resultId : Nat)
    (payload : Option (List (String × JsValue))) : List MetricRow :=
  match payload with
  | none => []
  | some entries => metricRows resultId entries

end DatabaseReporter

/-! ## Claims -/

/-- C1: the case identifier is NOT stable across the two entry points.
The live reporter hashes `location.file + "::" + titlePath().join(' › ')`
while the ingester hashes `spec.file + "::" + spec.title`, i.e. only the
leaf title: for a test inside a describe-block (or with any enclosing
title-path component) the two MD5 inputs — hence the digests — differ, so
a live run followed by JSON re-ingestion of the same test resolves to two
different `test_id`s, contradicting the spec's stability requirement. -/
theorem c1_test_id_diverges :
    DatabaseReporter.getTestId "tests/example.spec.ts" ["suite", "adds"] ≠
      ResultsIngester.getTestId "tests/example.spec.ts" "adds" := by
  decide

/-- C3 counterexample: a live-reporter result with source duration 1/2 ms
stores `duration_ms = 1/2`, which is not the source duration rounded to
the nearest integer millisecond — `DatabaseReporter.insertTestResult`
passes `result.duration` through unrounded. -/
theorem c3_counterexample :
    (DatabaseReporter.resultRow "run" 1
        { status := "passed", duration := 1/2, retry := 0,
          errorMessage := none, errorStack := none, stdout := [],
          stderr := [], startTime := 1000 }).durationMs ≠
      ((round ((1 : ℚ)/2) : ℤ) : ℚ) := by
  norm_num [DatabaseReporter.resultRow, round_eq]

/-- C3 amended: for every persisted TestResult of either entry point the
stored `finished_at` equals the stored `started_at` plus the stored
`duration_ms`, exactly; the ingester's stored duration is the source
duration rounded to the nearest integer millisecond, while the live
reporter stores the raw source duration unrounded. -/
theorem c3_duration_arithmetic (runId : String) (caseId : Nat) (r : AttemptData) :
    (DatabaseReporter.resultRow runId caseId r).finishedAt =
        (DatabaseReporter.resultRow runId caseId r).startedAt +
          (DatabaseReporter.resultRow runId caseId r).durationMs
  ∧ (ResultsIngester.resultRow runId caseId r).finishedAt =
        (ResultsIngester.resultRow runId caseId r).startedAt +
          (ResultsIngester.resultRow runId caseId r).durationMs
  ∧ (ResultsIngester.resultRow runId caseId r).durationMs =
        ((round r.duration : ℤ) : ℚ)
  ∧ (DatabaseReporter.resultRow runId caseId r).durationMs = r.duration :=
  ⟨rfl, rfl, rfl, rfl⟩

/-- C7 counterexample: in the empty environment (no database variables
resolved at all) both constructors succeed instead of throwing the
configuration error, because `defaultConfig` always materialises a
`database` object from fallback values. -/
theorem c7_counterexample :
    (DatabaseReporter.construct {}).isOk = true ∧
    (ResultsIngester.construct {}).isOk = true := by
  decide

/-- C7 amended: `getAggregationConfig` always returns a present `database`
config (env values or the literal fallbacks localhost/postgres/empty
password), so the `!config.database` guard of both constructors is
unreachable and construction succeeds in every environment — the claimed
fail-fast configuration error is never raised. -/
theorem c7_construct_never_throws (e : Env) :
    ((getAggregationConfig e).database).isSome = true
  ∧ (DatabaseReporter.construct e).isOk = true
  ∧ (ResultsIngester.construct e).isOk = true :=
  ⟨rfl, rfl, rfl⟩

/-- C8 counterexample: an overall outcome `failed` — an ordinary run
containing failing tests, not an infrastructure failure — is stored as
`failed`, not `completed`: `onEnd` writes `completed` only when the
overall status is exactly `passed`. -/
theorem c8_counterexample :
    DatabaseReporter.closeStatus "failed" ≠ "completed" := by
  decide

/-- C8 amended: at run close the live reporter stores `completed` exactly
when the overall Playwright outcome is `passed` and `failed` otherwise
(runs with failing tests are stored `failed`); the update rewrites
exactly the `test_runs` rows keyed by this run's identifier (others are
untouched), and the ingester's close always stores `completed`. -/
theorem c8_close_status_frame (overall : String) (runs : List TestRunRow)
    (runId : String) (tEnd tStart : ℚ) (stats : RunStats) (rst : ReportStats) :
    (DatabaseReporter.closeStatus overall = "completed" ↔ overall = "passed")
  ∧ (DatabaseReporter.onEndUpdate runs runId tEnd tStart overall stats).length
      = runs.length
  ∧ (∀ r ∈ runs, r.runId ≠ runId →
        r ∈ DatabaseReporter.onEndUpdate runs runId tEnd tStart overall stats)
  ∧ (∀ r ∈ DatabaseReporter.onEndUpdate runs runId tEnd tStart overall stats,
        r.runId = runId → r.status = DatabaseReporter.closeStatus overall)
  ∧ (∀ r ∈ ResultsIngester.updateTestRunStats runs runId rst,
        r.runId = runId → r.status = "completed") := by
  refine ⟨?_, ?_, ?_, ?_, ?_⟩
  · by_cases h : overall = "passed" <;>
      simp [DatabaseReporter.closeStatus, h]
  · simp [DatabaseReporter.onEndUpdate]
  · intro r hr hne
    unfold DatabaseReporter.onEndUpdate
    rw [List.mem_map]
    refine ⟨r, hr, ?_⟩
    rw [if_neg (by simp [hne])]
  · intro r hr heq
    rw [DatabaseReporter.onEndUpdate, List.mem_map] at hr
    obtain ⟨r0, hr0, hfr⟩ := hr
    by_cases h : r0.runId = runId
    · rw [if_pos (by simp [h])] at hfr
      rw [← hfr]
    · rw [if_neg (by simp [h])] at hfr
      rw [← hfr] at heq
      exact absurd heq h
  · intro r hr heq
    rw [ResultsIngester.updateTestRunStats, List.mem_map] at hr
    obtain ⟨r0, hr0, hfr⟩ := hr
    by_cases h : r0.runId = runId
    · rw [if_pos (by simp [h])] at hfr
      rw [← hfr]
    · rw [if_neg (by simp [h])] at hfr
      rw [← hfr] at heq
      exact absurd heq h

/-- A concrete `test_runs` row used to instantiate frame statements. -/
def sampleRunRow (rid : String) : TestRunRow where
  runId := rid
  projectName := "p"
  branchName := "main"
  commitSha := ""
  ciProvider := "local"
  ciBuildId := ""
  envName := "test"
  startedAt := 0
  finishedAt := none
  durationMs := none
  status := "running"
  totalTests := 1
  passedTests := 0
  failedTests := 0
  skippedTests := 0
  flakyTests := 0

/-- C8 witness: the amended close-status statement evaluated at concrete
inputs (outcome `passed` stores `completed`; a row keyed by a different
run id survives the update untouched). -/
theorem c8_close_status_frame_witness :
    DatabaseReporter.closeStatus "passed" = "completed"
  ∧ sampleRunRow "other" ∈
      DatabaseReporter.onEndUpdate [sampleRunRow "other"] "r1" 5 0 "passed"
        ⟨1, 0, 0, 0⟩ :=
  ⟨(c8_close_status_frame "passed" [] "r1" 5 0 ⟨1, 0, 0, 0⟩
      ⟨0, 0, 0, 0, 0, 0⟩).1.mpr rfl,
   (c8_close_status_frame "passed" [sampleRunRow "other"] "r1" 5 0
      ⟨1, 0, 0, 0⟩ ⟨0, 0, 0, 0, 0, 0⟩).2.2.1 (sampleRunRow "other")
      (by simp) (by decide)⟩

/-- The conflict-branch rewrite of the upsert preserves the constraint
key of every row. -/
theorem keyEq_conflict_update (tid fp pj br ti : String) (n : ℚ) (r : CaseRow) :
    keyEq (if keyEq r tid fp pj br then { r with title := ti, updatedAt := n }
      else r) tid fp pj br = keyEq r tid fp pj br := by
  by_cases h : keyEq r tid fp pj br = true
  · rw [if_pos h]
    rfl
  · rw [if_neg h]

/-- Helper: `find?` commutes with a map that preserves the predicate. -/
theorem find?_map_pres (g : CaseRow → CaseRow) (p : CaseRow → Bool)
    (hp : ∀ r, p (g r) = p r) :
    ∀ l : List CaseRow, (l.map g).find? p = (l.find? p).map g
  | [] => rfl
  | a :: l => by
    cases hpa : p a
    · rw [List.map_cons, List.find?_cons_of_neg _ (by simp [hp a, hpa]),
        List.find?_cons_of_neg _ (by simp [hpa])]
      exact find?_map_pres g p hp l
    · rw [List.map_cons, List.find?_cons_of_pos _ (by simp [hp a, hpa]),
        List.find?_cons_of_pos _ hpa]
      rfl

/-- Helper: `find?` skips a prefix on which it returns `none`. -/
theorem find?_append_none (p : CaseRow → Bool) :
    ∀ l1 l2 : List CaseRow, l1.find? p = none →
      (l1 ++ l2).find? p = l2.find? p
  | [], _, _ => rfl
  | a :: l1, l2, h => by
    cases hpa : p a
    · rw [List.cons_append, List.find?_cons_of_neg _ (by simp [hpa])]
      refine find?_append_none p l1 l2 ?_
      rwa [List.find?_cons_of_neg _ (by simp [hpa])] at h
    · rw [List.find?_cons_of_pos _ hpa] at h
      exact absurd h (by simp)

/-- A key-preserving map leaves the key-matching row count unchanged. -/
theorem countKey_map_pres (g : CaseRow → CaseRow) (tid fp pj br : String)
    (hp : ∀ r, keyEq (g r) tid fp pj br = keyEq r tid fp pj br) :
    ∀ l, countKey (l.map g) tid fp pj br = countKey l tid fp pj br
  | [] => rfl
  | a :: l => by
    have ih := countKey_map_pres g tid fp pj br hp l
    simp only [countKey, List.map_cons, List.filter_cons, hp a] at ih ⊢
    cases h : keyEq a tid fp pj br <;> simp [h, ih]

/-- Appending a key-matching row increments the key-matching count. -/
theorem countKey_append_one (l : List CaseRow) (r : CaseRow)
    (tid fp pj br : String) (hr : keyEq r tid fp pj br = true) :
    countKey (l ++ [r]) tid fp pj br = countKey l tid fp pj br + 1 := by
  simp [countKey, List.filter_append, hr]

/-- A fruitless `find?` on the key predicate means no row matches. -/
theorem countKey_eq_zero_of_find?_none (l : List CaseRow)
    (tid fp pj br : String)
    (h : l.find? (fun r => keyEq r tid fp pj br) = none) :
    countKey l tid fp pj br = 0 := by
  rw [List.find?_eq_none] at h
  simp only [countKey, List.length_eq_zero, List.filter_eq_nil_iff]
  exact h

/-- A successful `find?` on the key predicate bounds the count below. -/
theorem countKey_pos_of_find?_some (l : List CaseRow)
    (tid fp pj br : String) (r : CaseRow)
    (h : l.find? (fun q => keyEq q tid fp pj br) = some r) :
    1 ≤ countKey l tid fp pj br := by
  have hkey := List.find?_some h
  have hmem : r ∈ l.filter (fun q => keyEq q tid fp pj br) :=
    List.mem_filter.mpr ⟨List.mem_of_find?_eq_some h, hkey⟩
  have hpos := List.length_pos.mpr (List.ne_nil_of_mem hmem)
  unfold countKey
  omega

/-- A positive key-matching count makes `find?` succeed. -/
theorem find?_some_of_countKey_pos (l : List CaseRow)
    (tid fp pj br : String) (h : 1 ≤ countKey l tid fp pj br) :
    ∃ r, l.find? (fun q => keyEq q tid fp pj br) = some r := by
  cases hf : l.find? (fun q => keyEq q tid fp pj br) with
  | some r => exact ⟨r, rfl⟩
  | none =>
    rw [countKey_eq_zero_of_find?_none l tid fp pj br hf] at h
    exact absurd h (by omega)

/-- C5: the test-case upsert is conflict-safe with a bounded frame.
Starting from a table in which the `(test_id, file_path, project_name,
browser)` tuple occurs at most once (the uniqueness constraint), two
upserts of the same tuple leave exactly one matching row; the second
upsert adds no row, returns the numeric id obtained by the first, and
rewrites only the `title` and `updated_at` of the key-matching row,
leaving every id and all other fields (and all other rows) unchanged. -/
theorem c5_upsert_conflict_bounded_frame
    (tbl : CasesTable) (tid fp pj br ti1 ty1 tg1 ti2 ty2 tg2 : String)
    (n1 n2 : ℚ) (id1 : Nat) (tbl1 : CasesTable) (id2 : Nat)
    (tbl2 : CasesTable)
    (hwf : countKey tbl.rows tid fp pj br ≤ 1)
    (h1 : upsertTestCase tbl tid ti1 fp pj br ty1 tg1 n1 = (id1, tbl1))
    (h2 : upsertTestCase tbl1 tid ti2 fp pj br ty2 tg2 n2 = (id2, tbl2)) :
    countKey tbl2.rows tid fp pj br = 1
  ∧ tbl2.rows.length = tbl1.rows.length
  ∧ id2 = id1
  ∧ tbl2.rows = tbl1.rows.map (fun r =>
      if keyEq r tid fp pj br then { r with title := ti2, updatedAt := n2 }
      else r) := by
  have hpres1 := keyEq_conflict_update tid fp pj br ti1 n1
  have hpres2 := keyEq_conflict_update tid fp pj br ti2 n2
  have step1 : countKey tbl1.rows tid fp pj br = 1 ∧
      ∃ r1, tbl1.rows.find? (fun q => keyEq q tid fp pj br) = some r1 ∧
        r1.id = id1 := by
    cases hf : tbl.rows.find? (fun r => keyEq r tid fp pj br) with
    | none =>
      have e : upsertTestCase tbl tid ti1 fp pj br ty1 tg1 n1 =
          (tbl.nextId,
            ⟨tbl.rows ++ [upsertNewRow tbl tid ti1 fp pj br ty1 tg1 n1],
              tbl.nextId + 1⟩) := by
        unfold upsertTestCase
        rw [hf]
      rw [e, Prod.mk.injEq] at h1
      obtain ⟨hid1, htbl1⟩ := h1
      have hrows1 : tbl1.rows =
          tbl.rows ++ [upsertNewRow tbl tid ti1 fp pj br ty1 tg1 n1] := by
        rw [← htbl1]
      have hknew : keyEq (upsertNewRow tbl tid ti1 fp pj br ty1 tg1 n1)
          tid fp pj br = true := by
        simp [upsertNewRow, keyEq]
      refine ⟨?_, ?_⟩
      · rw [hrows1, countKey_append_one _ _ _ _ _ _ hknew,
          countKey_eq_zero_of_find?_none _ _ _ _ _ hf]
      · refine ⟨upsertNewRow tbl tid ti1 fp pj br ty1 tg1 n1, ?_, ?_⟩
        · rw [hrows1, find?_append_none _ _ _ hf]
          exact List.find?_cons_of_pos _ hknew
        · rw [← hid1]
          rfl
    | some r0 =>
      have e : upsertTestCase tbl tid ti1 fp pj br ty1 tg1 n1 =
          (r0.id,
            ⟨tbl.rows.map (fun q =>
                if keyEq q tid fp pj br then
                  { q with title := ti1, updatedAt := n1 }
                else q),
              tbl.nextId⟩) := by
        unfold upsertTestCase
        rw [hf]
      rw [e, Prod.mk.injEq] at h1
      obtain ⟨hid1, htbl1⟩ := h1
      have hrows1 : tbl1.rows = tbl.rows.map (fun q =>
          if keyEq q tid fp pj br then
            { q with title := ti1, updatedAt := n1 }
          else q) := by
        rw [← htbl1]
      have hkr0 : keyEq r0 tid fp pj br = true := by
        have := List.find?_some hf
        simpa using this
      refine ⟨?_, ?_⟩
      · rw [hrows1, countKey_map_pres _ tid fp pj br hpres1 tbl.rows]
        have hge := countKey_pos_of_find?_some tbl.rows tid fp pj br r0 hf
        omega
      · refine ⟨{ r0 with title := ti1, updatedAt := n1 }, ?_, ?_⟩
        · rw [hrows1, find?_map_pres _ _ hpres1 tbl.rows, hf]
          simp [hkr0]
        · rw [← hid1]
  obtain ⟨hc1, r1, hf1, hid1eq⟩ := step1
  have e2 : upsertTestCase tbl1 tid ti2 fp pj br ty2 tg2 n2 =
      (r1.id,
        ⟨tbl1.rows.map (fun q =>
            if keyEq q tid fp pj br then
              { q with title := ti2, updatedAt := n2 }
            else q),
          tbl1.nextId⟩) := by
    unfold upsertTestCase
    rw [hf1]
  rw [e2, Prod.mk.injEq] at h2
  obtain ⟨hid2, htbl2⟩ := h2
  have hrows2 : tbl2.rows = tbl1.rows.map (fun q =>
      if keyEq q tid fp pj br then { q with title := ti2, updatedAt := n2 }
      else q) := by
    rw [← htbl2]
  refine ⟨?_, ?_, ?_, hrows2⟩
  · rw [hrows2, countKey_map_pres _ tid fp pj br hpres2 tbl1.rows]
    exact hc1
  · rw [hrows2, List.length_map]
  · rw [← hid2]
    exact hid1eq

/-- C5 witness: two upserts of the same tuple into the empty table — the
second renames the title — produce one row, the same id `1`, and only the
title/timestamp rewrite. -/
theorem c5_upsert_conflict_bounded_frame_witness :
    countKey (upsertTestCase
        (upsertTestCase ⟨[], 1⟩ "h" "t1" "f" "p" "b" "e2e" "" 0).2
        "h" "t2" "f" "p" "b" "e2e" "" 9).2.rows "h" "f" "p" "b" = 1
  ∧ (upsertTestCase
        (upsertTestCase ⟨[], 1⟩ "h" "t1" "f" "p" "b" "e2e" "" 0).2
        "h" "t2" "f" "p" "b" "e2e" "" 9).2.rows.length =
      (upsertTestCase ⟨[], 1⟩ "h" "t1" "f" "p" "b" "e2e" "" 0).2.rows.length
  ∧ (upsertTestCase
        (upsertTestCase ⟨[], 1⟩ "h" "t1" "f" "p" "b" "e2e" "" 0).2
        "h" "t2" "f" "p" "b" "e2e" "" 9).1 =
      (upsertTestCase ⟨[], 1⟩ "h" "t1" "f" "p" "b" "e2e" "" 0).1
  ∧ (upsertTestCase
        (upsertTestCase ⟨[], 1⟩ "h" "t1" "f" "p" "b" "e2e" "" 0).2
        "h" "t2" "f" "p" "b" "e2e" "" 9).2.rows =
      (upsertTestCase ⟨[], 1⟩ "h" "t1" "f" "p" "b" "e2e" "" 0).2.rows.map
        (fun r => if keyEq r "h" "f" "p" "b" then
          { r with title := "t2", updatedAt := 9 } else r) :=
  c5_upsert_conflict_bounded_frame ⟨[], 1⟩ "h" "f" "p" "b" "t1" "e2e" ""
    "t2" "e2e" "" 0 9 _ _ _ _ (by decide) rfl rfl

/-- The reporter's fold accumulates exactly the events whose write
succeeds. -/
theorem processResults_eq_filter (db : List WriteEvent) :
    ∀ evs : List WriteEvent,
      DatabaseReporter.processResults db evs =
        db ++ evs.filter (fun e => e.writeOk)
  | [] => by simp [DatabaseReporter.processResults]
  | e :: rest => by
    have ih := processResults_eq_filter (DatabaseReporter.onTestEnd db e) rest
    rw [DatabaseReporter.processResults] at ih ⊢
    rw [List.foldl_cons, ih, List.filter_cons]
    cases h : e.writeOk <;>
      simp [DatabaseReporter.onTestEnd, h]

/-- The ingester's loop persists the longest ok-prefix and reports an
error exactly when some write fails. -/
theorem ingestResults_eq_takeWhile (db : List WriteEvent) :
    ∀ evs : List WriteEvent,
      ResultsIngester.ingestResults db evs =
        (db ++ evs.takeWhile (fun e => e.writeOk),
          if evs.all (fun e => e.writeOk) then none else some "write failed")
  | [] => by simp [ResultsIngester.ingestResults]
  | e :: rest => by
    cases h : e.writeOk with
    | true =>
      have ih := ingestResults_eq_takeWhile (db ++ [e]) rest
      rw [ResultsIngester.ingestResults, if_pos h, ih]
      simp [List.takeWhile_cons, List.all_cons, h]
    | false =>
      rw [ResultsIngester.ingestResults, if_neg (by simp [h])]
      simp [List.takeWhile_cons, List.all_cons, h]

/-- C6 counterexample: on a stream of five results where only the write
of result 2 fails, the offline ingester persists only result 1 — not the
other four — and the final stats update (run close) never runs: its loop
has no per-result catch, so the claimed failure isolation does not hold
for the ingestion entry point. -/
theorem c6_counterexample :
    (ResultsIngester.ingestResults []
        [⟨1, "passed", true⟩, ⟨2, "passed", false⟩, ⟨3, "passed", true⟩,
          ⟨4, "failed", true⟩, ⟨5, "passed", true⟩]).1.map
        (fun e => e.id) = [1]
  ∧ (ResultsIngester.ingestResults []
        [⟨1, "passed", true⟩, ⟨2, "passed", false⟩, ⟨3, "passed", true⟩,
          ⟨4, "failed", true⟩, ⟨5, "passed", true⟩]).1.map
        (fun e => e.id) ≠ [1, 3, 4, 5]
  ∧ ResultsIngester.statsUpdateRuns
        [⟨1, "passed", true⟩, ⟨2, "passed", false⟩, ⟨3, "passed", true⟩,
          ⟨4, "failed", true⟩, ⟨5, "passed", true⟩] = false := by
  refine ⟨by decide, by decide, by decide⟩

/-- C6 amended: only the live reporter isolates per-result write
failures — it persists exactly the results whose writes succeed (a
failing write is caught and the stream continues, so the close counts
reflect the surviving rows); the offline ingester instead persists only
the prefix before the first failing write and propagates the error, so
the remaining results are lost and the stats update is skipped. -/
theorem c6_write_failure_isolation (evs : List WriteEvent) :
    DatabaseReporter.processResults [] evs =
        evs.filter (fun e => e.writeOk)
  ∧ DatabaseReporter.getRunStats
        ((DatabaseReporter.processResults [] evs).map (fun e => e.status)) =
      DatabaseReporter.getRunStats
        ((evs.filter (fun e => e.writeOk)).map (fun e => e.status))
  ∧ (ResultsIngester.ingestResults [] evs).1 =
        evs.takeWhile (fun e => e.writeOk)
  ∧ (ResultsIngester.ingestResults [] evs).2.isSome =
        evs.any (fun e => !e.writeOk) := by
  have h1 := processResults_eq_filter [] evs
  have h2 := ingestResults_eq_takeWhile [] evs
  simp only [List.nil_append] at h1 h2
  refine ⟨h1, by rw [h1], by rw [h2], ?_⟩
  rw [h2]
  cases h : evs.all (fun e => e.writeOk)
  · simp [List.any_eq_not_all_not]
    simpa [List.all_eq_true, List.any_eq_true] using h
  · simp
    simpa [List.all_eq_true, List.any_eq_true] using h

/-- C9: for a performance-type result whose stdout yields a parsed
metrics object, exactly the number-valued entries are persisted — a
metric row with the entry's name and value and the fixed unit `ms`, tied
to this result — non-numeric entries are skipped, and an absent or
malformed payload (parse result `none`, per the surrounding `try/catch`)
produces no rows and never fails. -/
theorem c9_performance_metrics (rid : Nat)
    (entries : List (String × JsValue)) :
    (∀ row ∈ DatabaseReporter.insertPerformanceMetrics rid (some entries),
        row.metricUnit = "ms" ∧ row.testResultId = rid ∧
          (row.metricName, JsValue.num row.metricValue) ∈ entries)
  ∧ (∀ (n : String) (v : ℚ), (n, JsValue.num v) ∈ entries →
        ({ testResultId := rid, metricName := n, metricValue := v,
           metricUnit := "ms" } : MetricRow) ∈
          DatabaseReporter.insertPerformanceMetrics rid (some entries))
  ∧ (DatabaseReporter.insertPerformanceMetrics rid (some entries)).length =
      (entries.filter (fun p => match p.2 with
        | JsValue.num _ => true
        | _ => false)).length
  ∧ DatabaseReporter.insertPerformanceMetrics rid none = [] := by
  refine ⟨?_, ?_, ?_, rfl⟩
  · show ∀ row ∈ DatabaseReporter.metricRows rid entries, _
    induction entries with
    | nil => intro row hrow; cases hrow
    | cons p rest ih =>
      intro row hrow
      obtain ⟨n, v⟩ := p
      cases v with
      | num q =>
        rw [DatabaseReporter.metricRows] at hrow
        rcases List.mem_cons.mp hrow with h | h
        · subst h
          exact ⟨rfl, rfl, by simp⟩
        · obtain ⟨hu, hr, hm⟩ := ih row h
          exact ⟨hu, hr, List.mem_cons_of_mem _ hm⟩
      | str s =>
        rw [DatabaseReporter.metricRows] at hrow
        obtain ⟨hu, hr, hm⟩ := ih row hrow
        exact ⟨hu, hr, List.mem_cons_of_mem _ hm⟩
      | other =>
        rw [DatabaseReporter.metricRows] at hrow
        obtain ⟨hu, hr, hm⟩ := ih row hrow
        exact ⟨hu, hr, List.mem_cons_of_mem _ hm⟩
  · show ∀ (n : String) (v : ℚ), _ →
        _ ∈ DatabaseReporter.metricRows rid entries
    induction entries with
    | nil => intro n v hv; cases hv
    | cons p rest ih =>
      intro n v hv
      obtain ⟨n0, v0⟩ := p
      rcases List.mem_cons.mp hv with h | h
      · obtain ⟨hn, hv0⟩ := Prod.mk.injEq .. |>.mp h
        subst hn
        subst hv0
        rw [DatabaseReporter.metricRows]
        exact List.mem_cons_self _ _
      · cases v0 with
        | num q =>
          rw [DatabaseReporter.metricRows]
          exact List.mem_cons_of_mem _ (ih n v h)
        | str s =>
          rw [DatabaseReporter.metricRows]
          exact ih n v h
        | other =>
          rw [DatabaseReporter.metricRows]
          exact ih n v h
  · show (DatabaseReporter.metricRows rid entries).length = _
    induction entries with
    | nil => rfl
    | cons p rest ih =>
      obtain ⟨n, v⟩ := p
      cases v <;>
        simp [DatabaseReporter.metricRows, List.filter_cons, ih]

/-- C9 witness: a payload with a numeric `apiLatency` entry and a
non-numeric `renderTime` entry yields exactly the one `ms`-unit metric
row for `apiLatency`. -/
theorem c9_performance_metrics_witness :
    ({ testResultId := 7, metricName := "apiLatency", metricValue := 120,
       metricUnit := "ms" } : MetricRow) ∈
      DatabaseReporter.insertPerformanceMetrics 7
        (some [("apiLatency", JsValue.num 120),
          ("renderTime", JsValue.str "fast")]) :=
  (c9_performance_metrics 7
      [("apiLatency", JsValue.num 120),
        ("renderTime", JsValue.str "fast")]).2.1
    "apiLatency" 120 (List.mem_cons_self _ _)

/-- C10: the live reporter's `ci_provider` is always one of the literals
`github` (when `CI_PROVIDER` or `GITHUB_ACTIONS` is set to a non-empty
value, i.e. truthy) or `local` (otherwise) — the un-parenthesised ternary
never records the text of `CI_PROVIDER` — whereas the ingester records
the `CI_PROVIDER` text itself when it is set non-empty; at
`CI_PROVIDER=jenkins` the two entry points record different values. -/
theorem c10_ci_provider_values :
    (∀ (e : Env) (rid : String) (t0 : ℚ) (su : Suite),
        (DatabaseReporter.createTestRun e rid t0 su).ciProvider = "github" ∨
        (DatabaseReporter.createTestRun e rid t0 su).ciProvider = "local")
  ∧ (∀ (e : Env) (rid : String) (t0 : ℚ) (su : Suite),
        (truthy e.ciProvider || truthy e.githubActions) = true →
        (DatabaseReporter.createTestRun e rid t0 su).ciProvider = "github")
  ∧ (∀ (e : Env) (rid : String) (t0 : ℚ) (su : Suite),
        (truthy e.ciProvider || truthy e.githubActions) = false →
        (DatabaseReporter.createTestRun e rid t0 su).ciProvider = "local")
  ∧ (∀ (e : Env) (rid : String) (st : ReportStats) (s : String),
        e.ciProvider = some s → s ≠ "" →
        (ResultsIngester.createTestRun e rid st).ciProvider = s)
  ∧ (DatabaseReporter.createTestRun { ciProvider := some "jenkins" } "r" 0
        (Suite.node [] [])).ciProvider ≠
      (ResultsIngester.createTestRun { ciProvider := some "jenkins" } "r"
        ⟨0, 0, 0, 0, 0, 0⟩).ciProvider := by
  refine ⟨?_, ?_, ?_, ?_, ?_⟩
  · intro e rid t0 su
    by_cases h : (truthy e.ciProvider || truthy e.githubActions) = true
    · left; simp [DatabaseReporter.createTestRun, h]
    · right; simp [DatabaseReporter.createTestRun,
        Bool.not_eq_true _ ▸ h]
  · intro e rid t0 su h
    simp [DatabaseReporter.createTestRun, h]
  · intro e rid t0 su h
    simp [DatabaseReporter.createTestRun, h]
  · intro e rid st s hs hne
    simp [ResultsIngester.createTestRun, truthy, hs, hne]
  · decide

/-- Status tallies partition a result list whose statuses all lie in the
three additive buckets. -/
theorem countStatus_partition : ∀ statuses : List String,
    (∀ s ∈ statuses, s = "passed" ∨ s = "failed" ∨ s = "skipped") →
    countStatus statuses "passed" + countStatus statuses "failed" +
      countStatus statuses "skipped" = statuses.length
  | [], _ => rfl
  | s :: rest, h => by
    have ihr := countStatus_partition rest (fun t ht => h t (by simp [ht]))
    rcases h s (by simp) with h1 | h1 | h1 <;> subst h1 <;>
      simp [countStatus, List.filter_cons] at ihr ⊢ <;> omega

/-- C2 counterexample: a run whose single expected test produced exactly
one final result row with status `timedOut` (one row per counted test)
closes with `passed + failed + skipped = 0 ≠ 1 = total`: `getRunStats`
tallies only the `passed`/`failed`/`skipped`/`flaky` buckets and counts a
`timedOut` row nowhere. -/
theorem c2_counterexample :
    (["timedOut"] : List String).length =
        DatabaseReporter.countTests (Suite.node ["t1"] [])
  ∧ (DatabaseReporter.getRunStats ["timedOut"]).passed +
      (DatabaseReporter.getRunStats ["timedOut"]).failed +
      (DatabaseReporter.getRunStats ["timedOut"]).skipped ≠
        DatabaseReporter.countTests (Suite.node ["t1"] []) := by
  constructor <;> decide

/-- C2 amended: `passed + failed + skipped = total` holds at run close
when every expected test produced exactly one final result row AND every
row's status lies in the tallied buckets `passed`/`failed`/`skipped`
(statuses such as `timedOut` or `interrupted` are counted in no bucket
and break the identity); the ingester's close satisfies the identity
unconditionally since it writes `expected`/`unexpected`/`skipped`
directly against a total fixed as their sum. -/
theorem c2_run_count_consistency (suite : Suite) (statuses : List String)
    (hone : statuses.length = DatabaseReporter.countTests suite)
    (hstat : ∀ s ∈ statuses, s = "passed" ∨ s = "failed" ∨ s = "skipped") :
    ((DatabaseReporter.getRunStats statuses).passed +
      (DatabaseReporter.getRunStats statuses).failed +
      (DatabaseReporter.getRunStats statuses).skipped =
        DatabaseReporter.countTests suite)
  ∧ ∀ (e : Env) (rid : String) (st : ReportStats),
      (ResultsIngester.updateTestRunStats
          [ResultsIngester.createTestRun e rid st] rid st).map
        (fun r => r.passedTests + r.failedTests + r.skippedTests) =
      [(ResultsIngester.createTestRun e rid st).totalTests] := by
  constructor
  · have := countStatus_partition statuses hstat
    simpa [DatabaseReporter.getRunStats] using this.trans hone
  · intro e rid st
    simp [ResultsIngester.updateTestRunStats, ResultsIngester.createTestRun]

/-- C2 witness: the amended consistency statement at a two-test run with
one passed and one skipped final row. -/
theorem c2_run_count_consistency_witness :
    (DatabaseReporter.getRunStats ["passed", "skipped"]).passed +
      (DatabaseReporter.getRunStats ["passed", "skipped"]).failed +
      (DatabaseReporter.getRunStats ["passed", "skipped"]).skipped =
        DatabaseReporter.countTests (Suite.node ["a", "b"] []) :=
  (c2_run_count_consistency (Suite.node ["a", "b"] []) ["passed", "skipped"]
    (by decide) (by decide)).1

/-- C4: case resolution in the live reporter is idempotent — for a fixed
(location file, title path), a second resolution returns the numeric case
id of the first even when the display title (or any other field) changed
in between, and it leaves the reporter state untouched: the answer comes
from the in-memory cache and no further upsert statement is issued. -/
theorem c4_case_resolution_idempotent
    (st : DatabaseReporter.CaseState) (t t2 : TestCaseInput) (n n2 : ℚ)
    (hfile : t2.locationFile = t.locationFile)
    (hpath : t2.titlePath = t.titlePath) :
    (DatabaseReporter.insertTestCase
        (DatabaseReporter.insertTestCase st t n).2 t2 n2).1 =
      (DatabaseReporter.insertTestCase st t n).1
  ∧ (DatabaseReporter.insertTestCase
        (DatabaseReporter.insertTestCase st t n).2 t2 n2).2 =
      (DatabaseReporter.insertTestCase st t n).2 := by
  have hid : DatabaseReporter.getTestId t2.locationFile t2.titlePath =
      DatabaseReporter.getTestId t.locationFile t.titlePath := by
    rw [hfile, hpath]
  cases hc : DatabaseReporter.cacheGet st.cache
      (DatabaseReporter.getTestId t.locationFile t.titlePath) with
  | some id =>
    constructor <;>
      simp [DatabaseReporter.insertTestCase, hid, hc]
  | none =>
    constructor <;>
      simp [DatabaseReporter.insertTestCase, hid, hc,
        DatabaseReporter.cacheGet]

/-- C4 witness: resolving the same (file, title path) twice with the
display title renamed in between returns the first id and state. -/
theorem c4_case_resolution_idempotent_witness :
    (DatabaseReporter.insertTestCase
        (DatabaseReporter.insertTestCase ⟨[], ⟨[], 1⟩, 0⟩
          ⟨"a.spec.ts", ["d", "t"], "t", some "chromium"⟩ 0).2
        ⟨"a.spec.ts", ["d", "t"], "renamed", some "chromium"⟩ 3).1 =
      (DatabaseReporter.insertTestCase ⟨[], ⟨[], 1⟩, 0⟩
        ⟨"a.spec.ts", ["d", "t"], "t", some "chromium"⟩ 0).1
  ∧ (DatabaseReporter.insertTestCase
        (DatabaseReporter.insertTestCase ⟨[], ⟨[], 1⟩, 0⟩
          ⟨"a.spec.ts", ["d", "t"], "t", some "chromium"⟩ 0).2
        ⟨"a.spec.ts", ["d", "t"], "renamed", some "chromium"⟩ 3).2 =
      (DatabaseReporter.insertTestCase ⟨[], ⟨[], 1⟩, 0⟩
        ⟨"a.spec.ts", ["d", "t"], "t", some "chromium"⟩ 0).2 :=
  c4_case_resolution_idempotent ⟨[], ⟨[], 1⟩, 0⟩
    ⟨"a.spec.ts", ["d", "t"], "t", some "chromium"⟩
    ⟨"a.spec.ts", ["d", "t"], "renamed", some "chromium"⟩ 0 3 rfl rfl

/-- C10 witness: the reporter records `github` under `GITHUB_ACTIONS=true`
and the ingester records the verbatim `CI_PROVIDER=jenkins` text. -/
theorem c10_ci_provider_values_witness :
    (DatabaseReporter.createTestRun { githubActions := some "true" } "r" 0
        (Suite.node [] [])).ciProvider = "github"
  ∧ (ResultsIngester.createTestRun { ciProvider := some "jenkins" } "r"
        ⟨0, 0, 0, 0, 0, 0⟩).ciProvider = "jenkins" :=
  ⟨c10_ci_provider_values.2.1 { githubActions := some "true" } "r" 0
      (Suite.node [] []) (by decide),
   c10_ci_provider_values.2.2.2.1 { ciProvider := some "jenkins" } "r"
      ⟨0, 0, 0, 0, 0, 0⟩ "jenkins" rfl (by decide)⟩

end PMC
